import Mathlib

/-!
Shallow embedding of `src/lib.rs` of the servoglwindows repository: the
glutin-to-servo event translation (`WindowState::glutin_event_to_servo_event`),
its helper tables (`is_printable`, `glutin_key_to_script_key`,
`glutin_mods_to_script_mods`, `filter_nonprintable`) and the `run` loop.

Modelling conventions:
 * `f32` scroll deltas are embedded as exact rationals (the code performs
   only multiplication by 38, absolute-value comparison and zeroing);
 * the `u8` bitflags `KeyModifiers` is a `Nat` bitset (< 256), `toggle` is
   bitwise xor, `intersects` is a nonzero bitwise and;
 * `Vec::swap_remove` is `swapRemove` below (replace by last, pop);
 * the thread-local `HashMap<GLWindowId, WindowState>` is an association
   list keyed by `Nat` window ids, mutated in place;
 * `Result<Key, ()>` is `Option Key`;
 * the callback and the `warn!` diagnostics of `run` are reified as an
   output trace of `Output` values.
-/

namespace ServoGLWindows

/-- glutin `VirtualKeyCode` (glutin 0.7 era, as matched by the source). -/
inductive VirtualKeyCode
  | Key1 | Key2 | Key3 | Key4 | Key5 | Key6 | Key7 | Key8 | Key9 | Key0
  | A | B | C | D | E | F | G | H | I | J | K | L | M
  | N | O | P | Q | R | S | T | U | V | W | X | Y | Z
  | Escape
  | F1 | F2 | F3 | F4 | F5 | F6 | F7 | F8 | F9 | F10 | F11 | F12 | F13 | F14 | F15
  | Snapshot | Scroll | Pause
  | Insert | Home | Delete | End | PageDown | PageUp
  | Left | Up | Right | Down
  | Back | Return | Space
  | Numlock
  | Numpad0 | Numpad1 | Numpad2 | Numpad3 | Numpad4
  | Numpad5 | Numpad6 | Numpad7 | Numpad8 | Numpad9
  | AbntC1 | AbntC2 | Add | Apostrophe | Apps | At | Ax | Backslash
  | Calculator | Capital | Colon | Comma | Convert | Decimal | Divide
  | Equals | Grave | Kana | Kanji
  | LAlt | LBracket | LControl | LMenu | LShift | LWin
  | Mail | MediaSelect | MediaStop | Minus | Multiply | Mute | MyComputer
  | NavigateForward | NavigateBackward | NextTrack | NoConvert
  | NumpadComma | NumpadEnter | NumpadEquals
  | OEM102 | Period | PlayPause | Power | PrevTrack
  | RAlt | RBracket | RControl | RMenu | RShift | RWin
  | Semicolon | Slash | Sleep | Stop | Subtract | Sysrq | Tab
  | Underline | Unlabeled | VolumeDown | VolumeUp | Wake
  | WebBack | WebFavorites | WebForward | WebHome | WebRefresh | WebSearch | WebStop
  | Yen
deriving DecidableEq

/-- glutin `TouchPhase`. -/
inductive TouchPhase
  | Started | Moved | Ended | Cancelled
deriving DecidableEq

/-- glutin `ElementState`. -/
inductive ElementState
  | Pressed | Released
deriving DecidableEq

/-- glutin `MouseButton`. -/
inductive GlutinMouseButton
  | Left | Right | Middle | Other (n : Nat)
deriving DecidableEq

/-- glutin `MouseScrollDelta`; the `f32` components are exact rationals. -/
inductive MouseScrollDelta
  | LineDelta (dx dy : ℚ)
  | PixelDelta (dx dy : ℚ)
deriving DecidableEq

/-- glutin `WindowEvent` (glutin 0.7 era). The `KeyboardInput` modifiers
argument (`_mods`) is ignored by the source (`// FIXME: use _mods!`) and is
omitted; the dropped-file path and touch payloads are likewise irrelevant to
the translation, which handles them by the wildcard arm. -/
inductive GlutinWindowEvent
  | Resized (w h : Nat)
  | Moved (x y : Int)
  | Closed
  | DroppedFile
  | ReceivedCharacter (ch : Char)
  | Focused (f : Bool)
  | KeyboardInput (element_state : ElementState) (scan_code : Nat)
      (virtual_key_code : Option VirtualKeyCode)
  | MouseMoved (x y : Int)
  | MouseEntered
  | MouseLeft
  | MouseWheel (delta : MouseScrollDelta) (phase : TouchPhase)
  | MouseInput (state : ElementState) (button : GlutinMouseButton)
  | TouchpadPressure (pressure : ℚ) (stage : Int)
  | Awakened
  | Refresh
  | Suspended (s : Bool)
  | Touch
deriving DecidableEq

/-- servo `TouchEventType`. -/
inductive TouchEventType
  | Down | Move | Up | Cancel
deriving DecidableEq

/-- servo `KeyState`. -/
inductive KeyState
  | Pressed | Released
deriving DecidableEq

/-- servo `MouseButton`. -/
inductive ServoMouseButton
  | Left | Right | Middle
deriving DecidableEq

/-- servo `Key` (the constructors reachable from `glutin_key_to_script_key`). -/
inductive Key
  | A | B | C | D | E | F | G | H | I | J | K | L | M
  | N | O | P | Q | R | S | T | U | V | W | X | Y | Z
  | Kp0 | Kp1 | Kp2 | Kp3 | Kp4 | Kp5 | Kp6 | Kp7 | Kp8 | Kp9
  | Num0 | Num1 | Num2 | Num3 | Num4 | Num5 | Num6 | Num7 | Num8 | Num9
  | Enter | Space | Escape | Equal | Minus | Backspace | PageDown | PageUp
  | Insert | Home | Delete | End
  | Left | Up | Right | Down
  | LeftShift | LeftControl | LeftAlt | LeftSuper
  | RightShift | RightControl | RightAlt | RightSuper
  | Apostrophe | Backslash | Comma | GraveAccent | LeftBracket | Period
  | RightBracket | Semicolon | Slash | Tab
  | F1 | F2 | F3 | F4 | F5 | F6 | F7 | F8 | F9 | F10 | F11 | F12
  | NavigateBackward | NavigateForward
deriving DecidableEq

/-- servo `KeyModifiers` bitflags, as a record of the four flags
SHIFT, CONTROL, ALT, SUPER. -/
structure ServoKeyModifiers where
  shift : Bool
  control : Bool
  alt : Bool
  superMod : Bool
deriving DecidableEq

/-- servo `MouseWindowEvent`. Only `Click` is produced by this adapter. -/
inductive MouseWindowEvent
  | Click (button : ServoMouseButton) (x y : Int)
  | MouseDown (button : ServoMouseButton) (x y : Int)
  | MouseUp (button : ServoMouseButton) (x y : Int)
deriving DecidableEq

/-- servo `ScrollLocation`; only the `Delta` variant is used. -/
inductive ScrollLocation
  | Delta (dx dy : ℚ)
deriving DecidableEq

/-- servo `WindowEvent`: the semantic events this adapter delivers.
`MouseWindowMoveEventClass` and `Click` coordinates are `i32` values cast to
`f32`, embedded as the original integers. -/
inductive ServoWindowEvent
  | Idle
  | MouseWindowMoveEventClass (x y : Int)
  | Scroll (location : ScrollLocation) (x y : Int) (phase : TouchEventType)
  | MouseWindowEventClass (ev : MouseWindowEvent)
  | KeyEvent (ch : Option Char) (key : Key) (state : KeyState)
      (mods : ServoKeyModifiers)
deriving DecidableEq

/-- bitflags `KeyModifiers` constant `LEFT_CONTROL = 1`. -/
def LEFT_CONTROL : Nat := 1
/-- bitflags `KeyModifiers` constant `RIGHT_CONTROL = 2`. -/
def RIGHT_CONTROL : Nat := 2
/-- bitflags `KeyModifiers` constant `LEFT_SHIFT = 4`. -/
def LEFT_SHIFT : Nat := 4
/-- bitflags `KeyModifiers` constant `RIGHT_SHIFT = 8`. -/
def RIGHT_SHIFT : Nat := 8
/-- bitflags `KeyModifiers` constant `LEFT_ALT = 16`. -/
def LEFT_ALT : Nat := 16
/-- bitflags `KeyModifiers` constant `RIGHT_ALT = 32`. -/
def RIGHT_ALT : Nat := 32
/-- bitflags `KeyModifiers` constant `LEFT_SUPER = 64`. -/
def LEFT_SUPER : Nat := 64
/-- bitflags `KeyModifiers` constant `RIGHT_SUPER = 128`. -/
def RIGHT_SUPER : Nat := 128

/-- The `WindowState` record from the source: per-window accumulators. -/
structure WindowState where
  mouse_position : Int × Int
  key_modifiers : Nat
  pending_key_event_char : Option Char
  pressed_key_map : List (Nat × Char)
deriving DecidableEq

/-- Rust `char::is_control`: the Unicode Cc category,
U+0000 - U+001F and U+007F - U+009F. -/
def char_is_control (ch : Char) : Bool :=
  ch.toNat ≤ 0x1f || (0x7f ≤ ch.toNat && ch.toNat ≤ 0x9f)

/-- The modifier-bit table of lines 111-121 of the source: which
`KeyModifiers` bit a virtual key code toggles, if any. -/
def modifier_of_key : VirtualKeyCode → Option Nat
  | .LControl => some LEFT_CONTROL
  | .RControl => some RIGHT_CONTROL
  | .LShift => some LEFT_SHIFT
  | .RShift => some RIGHT_SHIFT
  | .LAlt => some LEFT_ALT
  | .RAlt => some RIGHT_ALT
  | .LWin => some LEFT_SUPER
  | .RWin => some RIGHT_SUPER
  | _ => none

/-- Function `glutin_mods_to_script_mods` from the source. -/
def glutin_mods_to_script_mods (modifiers : Nat) : ServoKeyModifiers :=
  { shift := modifiers &&& (LEFT_SHIFT ||| RIGHT_SHIFT) != 0
    control := modifiers &&& (LEFT_CONTROL ||| RIGHT_CONTROL) != 0
    alt := modifiers &&& (LEFT_ALT ||| RIGHT_ALT) != 0
    superMod := modifiers &&& (LEFT_SUPER ||| RIGHT_SUPER) != 0 }

/-- Function `is_printable` from the source: `false` exactly on the enumerated
control/function/navigation keys. -/
def is_printable (key_code : VirtualKeyCode) : Bool :=
  match key_code with
  | .Escape | .F1 | .F2 | .F3 | .F4 | .F5 | .F6 | .F7 | .F8 | .F9 | .F10
  | .F11 | .F12 | .F13 | .F14 | .F15
  | .Snapshot | .Scroll | .Pause
  | .Insert | .Home | .Delete | .End | .PageDown | .PageUp
  | .Left | .Up | .Right | .Down
  | .Back
  | .LAlt | .LControl | .LMenu | .LShift | .LWin
  | .Mail | .MediaSelect | .MediaStop | .Mute | .MyComputer
  | .NavigateForward | .NavigateBackward | .NextTrack | .NoConvert
  | .PlayPause | .Power | .PrevTrack
  | .RAlt | .RControl | .RMenu | .RShift | .RWin
  | .Sleep | .Stop | .VolumeDown | .VolumeUp | .Wake
  | .WebBack | .WebFavorites | .WebForward | .WebHome | .WebRefresh
  | .WebSearch | .WebStop => false
  | _ => true

/-- Function `filter_nonprintable` from the source. -/
def filter_nonprintable (ch : Char) (key_code : VirtualKeyCode) : Option Char :=
  if is_printable key_code then some ch else none

/-- Function `glutin_key_to_script_key` from the source; `Err(())` is `none`. -/
def glutin_key_to_script_key : VirtualKeyCode → Option Key
  | .A => some .A
  | .B => some .B
  | .C => some .C
  | .D => some .D
  | .E => some .E
  | .F => some .F
  | .G => some .G
  | .H => some .H
  | .I => some .I
  | .J => some .J
  | .K => some .K
  | .L => some .L
  | .M => some .M
  | .N => some .N
  | .O => some .O
  | .P => some .P
  | .Q => some .Q
  | .R => some .R
  | .S => some .S
  | .T => some .T
  | .U => some .U
  | .V => some .V
  | .W => some .W
  | .X => some .X
  | .Y => some .Y
  | .Z => some .Z
  | .Numpad0 => some .Kp0
  | .Numpad1 => some .Kp1
  | .Numpad2 => some .Kp2
  | .Numpad3 => some .Kp3
  | .Numpad4 => some .Kp4
  | .Numpad5 => some .Kp5
  | .Numpad6 => some .Kp6
  | .Numpad7 => some .Kp7
  | .Numpad8 => some .Kp8
  | .Numpad9 => some .Kp9
  | .Key0 => some .Num0
  | .Key1 => some .Num1
  | .Key2 => some .Num2
  | .Key3 => some .Num3
  | .Key4 => some .Num4
  | .Key5 => some .Num5
  | .Key6 => some .Num6
  | .Key7 => some .Num7
  | .Key8 => some .Num8
  | .Key9 => some .Num9
  | .Return => some .Enter
  | .Space => some .Space
  | .Escape => some .Escape
  | .Equals => some .Equal
  | .Minus => some .Minus
  | .Back => some .Backspace
  | .PageDown => some .PageDown
  | .PageUp => some .PageUp
  | .Insert => some .Insert
  | .Home => some .Home
  | .Delete => some .Delete
  | .End => some .End
  | .Left => some .Left
  | .Up => some .Up
  | .Right => some .Right
  | .Down => some .Down
  | .LShift => some .LeftShift
  | .LControl => some .LeftControl
  | .LAlt => some .LeftAlt
  | .LWin => some .LeftSuper
  | .RShift => some .RightShift
  | .RControl => some .RightControl
  | .RAlt => some .RightAlt
  | .RWin => some .RightSuper
  | .Apostrophe => some .Apostrophe
  | .Backslash => some .Backslash
  | .Comma => some .Comma
  | .Grave => some .GraveAccent
  | .LBracket => some .LeftBracket
  | .Period => some .Period
  | .RBracket => some .RightBracket
  | .Semicolon => some .Semicolon
  | .Slash => some .Slash
  | .Tab => some .Tab
  | .Subtract => some .Minus
  | .F1 => some .F1
  | .F2 => some .F2
  | .F3 => some .F3
  | .F4 => some .F4
  | .F5 => some .F5
  | .F6 => some .F6
  | .F7 => some .F7
  | .F8 => some .F8
  | .F9 => some .F9
  | .F10 => some .F10
  | .F11 => some .F11
  | .F12 => some .F12
  | .NavigateBackward => some .NavigateBackward
  | .NavigateForward => some .NavigateForward
  | _ => none

/-- Rust `Vec::swap_remove(i)`: replace the element at `i` by the last element
and pop the last. Identity semantics only claimed for `i < l.length`. -/
def swapRemove {α : Type} (l : List α) (i : Nat) : List α :=
  match l.getLast? with
  | none => []
  | some last => (l.set i last).dropLast

/-- The `glutin::ElementState::Pressed` arm of the `ch` computation and its
state effects (lines 131-141): consume the pending character through
`filter_nonprintable`, clear it, and record a delivered character in
`pressed_key_map`. -/
def pressed_char_step (s : WindowState) (scan_code : Nat)
    (virtual_key_code : VirtualKeyCode) : WindowState × Option Char :=
  let ch := s.pending_key_event_char.bind
    (fun ch => filter_nonprintable ch virtual_key_code)
  let s := { s with pending_key_event_char := none }
  match ch with
  | some c => ({ s with pressed_key_map := s.pressed_key_map ++ [(scan_code, c)] }, some c)
  | none => (s, none)

/-- The `glutin::ElementState::Released` arm of the `ch` computation and its
state effect (lines 142-148): find the first `pressed_key_map` entry with
this scan code, `swap_remove` it, and yield its character. -/
def released_char_step (s : WindowState) (scan_code : Nat) :
    WindowState × Option Char :=
  match s.pressed_key_map.findIdx? (fun p => p.1 == scan_code) with
  | some idx =>
      ({ s with pressed_key_map := swapRemove s.pressed_key_map idx },
       (s.pressed_key_map.get? idx).map Prod.snd)
  | none => (s, none)

/-- The modifier toggle of lines 125-129: when the key is a modifier key,
xor its bit into the `key_modifiers` bitset (`bitflags` `toggle`). -/
def toggle_modifier (s : WindowState) (virtual_key_code : VirtualKeyCode) :
    WindowState :=
  match modifier_of_key virtual_key_code with
  | some modifier => { s with key_modifiers := s.key_modifiers ^^^ modifier }
  | none => s

/-- The `glutin::WindowEvent::KeyboardInput(_, _, Some(_), _)` arm
(lines 108-161): toggle a modifier bit when the key is a modifier key,
compute the attached character per element state, and emit a `KeyEvent`
(whose modifier set reads the just-toggled bitset) when the key code has a
script-key mapping. -/
def keyboard_input_step (s : WindowState) (element_state : ElementState)
    (scan_code : Nat) (virtual_key_code : VirtualKeyCode) :
    WindowState × Option ServoWindowEvent :=
  let s := toggle_modifier s virtual_key_code
  let r :=
    match element_state with
    | .Pressed => pressed_char_step s scan_code virtual_key_code
    | .Released => released_char_step s scan_code
  match glutin_key_to_script_key virtual_key_code with
  | some key =>
      let state := match element_state with
        | .Pressed => KeyState.Pressed
        | .Released => KeyState.Released
      let modifiers := glutin_mods_to_script_mods s.key_modifiers
      (r.1, some (.KeyEvent r.2 key state modifiers))
  | none => (r.1, none)

/-- Method `WindowState::glutin_event_to_servo_event`, as a pure state transition:
it returns the updated window state together with the optional semantic
event the Rust method returns. -/
def glutin_event_to_servo_event (s : WindowState) :
    GlutinWindowEvent → WindowState × Option ServoWindowEvent
  | .MouseMoved x y =>
      ({ s with mouse_position := (x, y) },
       some (.MouseWindowMoveEventClass x y))
  | .MouseWheel delta phase =>
      let d : ℚ × ℚ :=
        match delta with
        | .LineDelta dx dy => (dx, dy * 38)
        | .PixelDelta dx dy => (dx, dy)
      let d : ℚ × ℚ := if |d.2| ≥ |d.1| then (0, d.2) else (d.1, 0)
      let scroll_location := ScrollLocation.Delta d.1 d.2
      let phase :=
        match phase with
        | .Started => TouchEventType.Down
        | .Moved => TouchEventType.Move
        | .Ended => TouchEventType.Up
        | .Cancelled => TouchEventType.Cancel
      (s, some (.Scroll scroll_location s.mouse_position.1 s.mouse_position.2 phase))
  | .MouseInput .Released .Left =>
      (s, some (.MouseWindowEventClass
        (.Click .Left s.mouse_position.1 s.mouse_position.2)))
  | .ReceivedCharacter ch =>
      (if char_is_control ch then s
       else { s with pending_key_event_char := some ch },
       none)
  | .KeyboardInput element_state scan_code (some virtual_key_code) =>
      keyboard_input_step s element_state scan_code virtual_key_code
  | _ => (s, none)

/-- A platform event as seen by `run`: a window id and a window event. -/
structure PlatformEvent where
  window_id : Nat
  event : GlutinWindowEvent
deriving DecidableEq

/-- Observable actions of `run`: a callback invocation, or one of the two
`warn!` diagnostics (line 183: unknown glutin event for a known window;
line 197: event for an unknown window). -/
inductive Output
  | callbackCall (e : ServoWindowEvent) (id : Option Nat)
  | warnUnknownEvent
  | warnUnknownWindow
deriving DecidableEq

/-- The thread-local `WINDOWS_STATE` map, as an association list. -/
abbrev Windows : Type := List (Nat × WindowState)

/-- Lookup (`HashMap` get) on the association list. -/
def lookupWindow : Windows → Nat → Option WindowState
  | [], _ => none
  | (i, s) :: rest, id => if i = id then some s else lookupWindow rest id

/-- In-place update of one window's state (`get_mut` mutation). -/
def updateWindow : Windows → Nat → WindowState → Windows
  | [], _, _ => []
  | (i, s) :: rest, id, s' =>
      if i = id then (i, s') :: rest else (i, s) :: updateWindow rest id s'

/-- One `run_forever` callback activation (lines 174-204): dispatch a single
platform event against the windows map, producing the new map and the
emitted outputs. -/
def processEvent (ws : Windows) (pe : PlatformEvent) : Windows × List Output :=
  match lookupWindow ws pe.window_id with
  | some st =>
      let r := glutin_event_to_servo_event st pe.event
      let ws' := updateWindow ws pe.window_id r.1
      match r.2 with
      | some servo_event => (ws', [.callbackCall servo_event (some pe.window_id)])
      | none => (ws', [.warnUnknownEvent])
  | none =>
      match pe.event with
      | .Awakened => (ws, [.callbackCall .Idle none])
      | _ => (ws, [.warnUnknownWindow])

/-- Draining one batch of platform events (one `run_forever` call until the
interrupt): process the events in order, accumulating outputs. -/
def processBatch (ws : Windows) : List PlatformEvent → Windows × List Output
  | [] => (ws, [])
  | pe :: rest =>
      let r := processEvent ws pe
      let r' := processBatch r.1 rest
      (r'.1, r.2 ++ r'.2)

/-- One iteration of the unconditional `loop` in `run` (lines 171-208):
drain a batch, then invoke `callback(ServoWindowEvent::Idle, None)` once. -/
def runIter (ws : Windows) (batch : List PlatformEvent) :
    Windows × List Output :=
  let r := processBatch ws batch
  (r.1, r.2 ++ [.callbackCall .Idle none])

/-- The trace of the first `n` iterations of `run`'s loop over a stream of
batches: the loop has no exit, so the trace is defined for every `n`. -/
def runTrace (batches : Nat → List PlatformEvent) (ws : Windows) :
    Nat → Windows × List Output
  | 0 => (ws, [])
  | n + 1 =>
      let r := runTrace batches ws n
      let r' := runIter r.1 (batches n)
      (r'.1, r.2 ++ r'.2)

/-- The `WindowState` inserted into `WINDOWS_STATE` by `GLWindow::new`
(lines 254-259). -/
def initial_window_state : WindowState :=
  { mouse_position := (0, 0)
    key_modifiers := 0
    pending_key_event_char := none
    pressed_key_map := [] }

/-! ### Frame lemmas for the keyboard sub-steps -/

theorem toggle_modifier_mouse (s : WindowState) (vk : VirtualKeyCode) :
    (toggle_modifier s vk).mouse_position = s.mouse_position := by
  unfold toggle_modifier; cases h : modifier_of_key vk <;> rfl

theorem toggle_modifier_pending (s : WindowState) (vk : VirtualKeyCode) :
    (toggle_modifier s vk).pending_key_event_char = s.pending_key_event_char := by
  unfold toggle_modifier; cases h : modifier_of_key vk <;> rfl

theorem toggle_modifier_map (s : WindowState) (vk : VirtualKeyCode) :
    (toggle_modifier s vk).pressed_key_map = s.pressed_key_map := by
  unfold toggle_modifier; cases h : modifier_of_key vk <;> rfl

theorem toggle_modifier_mods (s : WindowState) (vk : VirtualKeyCode) :
    (toggle_modifier s vk).key_modifiers =
      match modifier_of_key vk with
      | some m => s.key_modifiers ^^^ m
      | none => s.key_modifiers := by
  unfold toggle_modifier; cases h : modifier_of_key vk <;> rfl

theorem pressed_char_step_snd (s : WindowState) (sc : Nat) (vk : VirtualKeyCode) :
    (pressed_char_step s sc vk).2 =
      s.pending_key_event_char.bind (fun c => filter_nonprintable c vk) := by
  unfold pressed_char_step
  cases h : s.pending_key_event_char.bind (fun c => filter_nonprintable c vk) <;>
    simp [h]

theorem pressed_char_step_pending (s : WindowState) (sc : Nat) (vk : VirtualKeyCode) :
    (pressed_char_step s sc vk).1.pending_key_event_char = none := by
  unfold pressed_char_step
  cases h : s.pending_key_event_char.bind (fun c => filter_nonprintable c vk) <;>
    simp [h]

theorem pressed_char_step_mouse (s : WindowState) (sc : Nat) (vk : VirtualKeyCode) :
    (pressed_char_step s sc vk).1.mouse_position = s.mouse_position := by
  unfold pressed_char_step
  cases h : s.pending_key_event_char.bind (fun c => filter_nonprintable c vk) <;>
    simp [h]

theorem pressed_char_step_mods (s : WindowState) (sc : Nat) (vk : VirtualKeyCode) :
    (pressed_char_step s sc vk).1.key_modifiers = s.key_modifiers := by
  unfold pressed_char_step
  cases h : s.pending_key_event_char.bind (fun c => filter_nonprintable c vk) <;>
    simp [h]

theorem pressed_char_step_map (s : WindowState) (sc : Nat) (vk : VirtualKeyCode) :
    (pressed_char_step s sc vk).1.pressed_key_map =
      match (pressed_char_step s sc vk).2 with
      | some c => s.pressed_key_map ++ [(sc, c)]
      | none => s.pressed_key_map := by
  unfold pressed_char_step
  cases h : s.pending_key_event_char.bind (fun c => filter_nonprintable c vk) <;>
    simp [h]

theorem released_char_step_pending (s : WindowState) (sc : Nat) :
    (released_char_step s sc).1.pending_key_event_char =
      s.pending_key_event_char := by
  unfold released_char_step
  cases h : s.pressed_key_map.findIdx? (fun p => p.1 == sc) <;> simp [h]

theorem released_char_step_mouse (s : WindowState) (sc : Nat) :
    (released_char_step s sc).1.mouse_position = s.mouse_position := by
  unfold released_char_step
  cases h : s.pressed_key_map.findIdx? (fun p => p.1 == sc) <;> simp [h]

theorem released_char_step_mods (s : WindowState) (sc : Nat) :
    (released_char_step s sc).1.key_modifiers = s.key_modifiers := by
  unfold released_char_step
  cases h : s.pressed_key_map.findIdx? (fun p => p.1 == sc) <;> simp [h]

theorem keyboard_input_step_fst (s : WindowState) (es : ElementState)
    (sc : Nat) (vk : VirtualKeyCode) :
    (keyboard_input_step s es sc vk).1 =
      match es with
      | .Pressed => (pressed_char_step (toggle_modifier s vk) sc vk).1
      | .Released => (released_char_step (toggle_modifier s vk) sc).1 := by
  unfold keyboard_input_step
  cases es <;> cases h : glutin_key_to_script_key vk <;> simp [h]

theorem keyboard_input_step_snd (s : WindowState) (es : ElementState)
    (sc : Nat) (vk : VirtualKeyCode) :
    (keyboard_input_step s es sc vk).2 =
      match glutin_key_to_script_key vk with
      | some key =>
          some (.KeyEvent
            (match es with
             | .Pressed => (pressed_char_step (toggle_modifier s vk) sc vk).2
             | .Released => (released_char_step (toggle_modifier s vk) sc).2)
            key
            (match es with
             | .Pressed => KeyState.Pressed
             | .Released => KeyState.Released)
            (glutin_mods_to_script_mods (toggle_modifier s vk).key_modifiers))
      | none => none := by
  unfold keyboard_input_step
  cases es <;> cases h : glutin_key_to_script_key vk <;> simp [h]

theorem keyboard_input_step_mods (s : WindowState) (es : ElementState)
    (sc : Nat) (vk : VirtualKeyCode) :
    (keyboard_input_step s es sc vk).1.key_modifiers =
      (toggle_modifier s vk).key_modifiers := by
  rw [keyboard_input_step_fst]
  cases es
  · exact pressed_char_step_mods _ _ _
  · exact released_char_step_mods _ _

/-! ### Claim theorems -/

/-- C8: a `ReceivedCharacter` platform event never produces a semantic event
(`glutin_event_to_servo_event` returns `none` for it); when the character is
a control character the window state is unchanged, and otherwise the only
state change is recording the character as the pending key-event
character. -/
theorem received_character_frame_effect (s : WindowState) (ch : Char) :
    glutin_event_to_servo_event s (.ReceivedCharacter ch) =
      ((if char_is_control ch then s
        else { s with pending_key_event_char := some ch }), none)
    ∧ (glutin_event_to_servo_event s (.ReceivedCharacter ch)).1.mouse_position
        = s.mouse_position
    ∧ (glutin_event_to_servo_event s (.ReceivedCharacter ch)).1.key_modifiers
        = s.key_modifiers
    ∧ (glutin_event_to_servo_event s (.ReceivedCharacter ch)).1.pressed_key_map
        = s.pressed_key_map := by
  by_cases h : char_is_control ch <;>
    simp [glutin_event_to_servo_event, h]

/-- C9: after processing any key-press `KeyboardInput` carrying a virtual key
code, the pending key-event character is `none`: it is consumed or discarded
on every press, even when filtered out or when no event is emitted. -/
theorem key_press_clears_pending_char (s : WindowState) (sc : Nat)
    (vk : VirtualKeyCode) :
    ((glutin_event_to_servo_event s
        (.KeyboardInput .Pressed sc (some vk))).1).pending_key_event_char
      = none := by
  show (keyboard_input_step s .Pressed sc vk).1.pending_key_event_char = none
  rw [keyboard_input_step_fst]
  exact pressed_char_step_pending _ _ _

/-- C4: `MouseMoved` updates the stored mouse position to the event's
coordinates; a `MouseWheel` event leaves the state unchanged and its emitted
`Scroll` event uses the stored mouse position of the same window as its
point. -/
theorem mouse_position_tracking (s : WindowState) (x y : Int)
    (delta : MouseScrollDelta) (phase : TouchPhase) :
    (glutin_event_to_servo_event s (.MouseMoved x y)).1.mouse_position = (x, y)
    ∧ (glutin_event_to_servo_event s (.MouseWheel delta phase)).1 = s
    ∧ ∃ loc ph, (glutin_event_to_servo_event s (.MouseWheel delta phase)).2 =
        some (.Scroll loc s.mouse_position.1 s.mouse_position.2 ph) := by
  refine ⟨rfl, rfl, ?_⟩
  exact ⟨_, _, rfl⟩

/-- C6: a `MouseWheel` event always yields a `Scroll` event: a line delta
`(dx, dy)` becomes `(dx, dy * 38)`, a pixel delta is taken unchanged, then
`dx` is zeroed when `|dy| >= |dx|` and otherwise `dy` is zeroed; the touch
phase maps Started to Down, Moved to Move, Ended to Up, Cancelled to
Cancel. -/
theorem mouse_wheel_scroll_computation (s : WindowState) (dx dy : ℚ)
    (phase : TouchPhase) :
    glutin_event_to_servo_event s (.MouseWheel (.LineDelta dx dy) phase) =
      (s, some (.Scroll
        (if |dy * 38| ≥ |dx| then ScrollLocation.Delta 0 (dy * 38)
         else ScrollLocation.Delta dx 0)
        s.mouse_position.1 s.mouse_position.2
        (match phase with
         | .Started => TouchEventType.Down
         | .Moved => TouchEventType.Move
         | .Ended => TouchEventType.Up
         | .Cancelled => TouchEventType.Cancel)))
    ∧ glutin_event_to_servo_event s (.MouseWheel (.PixelDelta dx dy) phase) =
      (s, some (.Scroll
        (if |dy| ≥ |dx| then ScrollLocation.Delta 0 dy
         else ScrollLocation.Delta dx 0)
        s.mouse_position.1 s.mouse_position.2
        (match phase with
         | .Started => TouchEventType.Down
         | .Moved => TouchEventType.Move
         | .Ended => TouchEventType.Up
         | .Cancelled => TouchEventType.Cancel))) := by
  refine ⟨?_, ?_⟩
  · cases phase <;> by_cases h : |dy * 38| ≥ |dx| <;>
      simp [glutin_event_to_servo_event, h]
  · cases phase <;> by_cases h : |dy| ≥ |dx| <;>
      simp [glutin_event_to_servo_event, h]

/-- C5: the loop of `run` has no exit, so its trace extends at every
iteration count; after each drained batch it delivers exactly one `Idle`
event with no window id (and over empty batches the whole trace is exactly
one `Idle` per iteration). -/
theorem run_loop_idle_per_batch (batches : Nat → List PlatformEvent)
    (ws : Windows) (n : Nat) :
    (runTrace batches ws (n + 1)).2 =
      (runTrace batches ws n).2
        ++ (processBatch (runTrace batches ws n).1 (batches n)).2
        ++ [Output.callbackCall .Idle none]
    ∧ (runTrace (fun _ => []) ws n).2 =
        List.replicate n (Output.callbackCall .Idle none) := by
  constructor
  · simp [runTrace, runIter, List.append_assoc]
  · induction n with
    | zero => rfl
    | succ k ih => simp [runTrace, runIter, processBatch, ih, List.replicate_succ']

/-- C1: for an event belonging to a known window, the run loop emits the
unknown-event warning and does not invoke the callback exactly when
`glutin_event_to_servo_event` returns no semantic event, and invokes the
callback exactly when a semantic event is produced. -/
theorem run_warns_and_skips_on_none (ws : Windows) (pe : PlatformEvent)
    (st : WindowState) (h : lookupWindow ws pe.window_id = some st) :
    ((glutin_event_to_servo_event st pe.event).2 = none →
      (processEvent ws pe).2 = [Output.warnUnknownEvent])
    ∧ ∀ e, (glutin_event_to_servo_event st pe.event).2 = some e →
      (processEvent ws pe).2 = [Output.callbackCall e (some pe.window_id)] := by
  constructor
  · intro hn; simp [processEvent, h, hn]
  · intro e he; simp [processEvent, h, he]

/-- Witness for C1 at a concrete input: a `Closed` event for window 0, which
the translation does not recognize, produces only the warning. -/
theorem run_warns_and_skips_on_none_witness :
    (processEvent [(0, initial_window_state)] ⟨0, .Closed⟩).2 =
      [Output.warnUnknownEvent] :=
  (run_warns_and_skips_on_none [(0, initial_window_state)] ⟨0, .Closed⟩
    initial_window_state rfl).1 rfl

/-- C2: the held-modifier bitset is toggled (xor of the key's bit, per the
`modifier_of_key` table) exactly on `KeyboardInput` events carrying a
modifier virtual key code, is unchanged by every other event, and every
emitted `KeyEvent` carries the modifier set derived from the current
(post-toggle) value of the bitset. -/
theorem modifier_bitset_toggle_and_reflect (s : WindowState)
    (ev : GlutinWindowEvent) :
    ((glutin_event_to_servo_event s ev).1.key_modifiers =
      match ev with
      | .KeyboardInput _ _ (some vk) =>
          match modifier_of_key vk with
          | some m => s.key_modifiers ^^^ m
          | none => s.key_modifiers
      | _ => s.key_modifiers)
    ∧ ∀ ch k st m, (glutin_event_to_servo_event s ev).2 =
        some (.KeyEvent ch k st m) →
        m = glutin_mods_to_script_mods
              ((glutin_event_to_servo_event s ev).1.key_modifiers) := by
  constructor
  · cases ev <;> try rfl
    case MouseInput est b => cases est <;> cases b <;> rfl
    case ReceivedCharacter c =>
      by_cases h : char_is_control c <;> simp [glutin_event_to_servo_event, h]
    case KeyboardInput es sc ovk =>
      cases ovk with
      | none => rfl
      | some vk =>
          show (keyboard_input_step s es sc vk).1.key_modifiers = _
          rw [keyboard_input_step_mods]
          exact toggle_modifier_mods _ _
  · intro ch k st m h
    cases ev
    case MouseMoved x y => simp [glutin_event_to_servo_event] at h
    case MouseWheel delta phase => simp [glutin_event_to_servo_event] at h
    case MouseInput est b =>
      cases est <;> cases b <;> simp [glutin_event_to_servo_event] at h
    case ReceivedCharacter c =>
      by_cases hc : char_is_control c <;>
        simp [glutin_event_to_servo_event, hc] at h
    case KeyboardInput es sc ovk =>
      cases ovk with
      | none => exact Option.noConfusion h
      | some vk =>
          have h2 : (keyboard_input_step s es sc vk).2 =
              some (.KeyEvent ch k st m) := h
          rw [keyboard_input_step_snd] at h2
          cases hk : glutin_key_to_script_key vk with
          | none => rw [hk] at h2; exact Option.noConfusion h2
          | some key =>
              rw [hk] at h2
              injection h2 with h3
              injection h3 with hch hkey hst hm
              show m = glutin_mods_to_script_mods
                ((keyboard_input_step s es sc vk).1.key_modifiers)
              rw [keyboard_input_step_mods]
              exact hm.symm
    all_goals exact Option.noConfusion h

/-- Witness for C2 at a concrete input: a left-shift press on the initial
state emits a `KeyEvent` whose modifiers reflect the toggled bitset. -/
theorem modifier_bitset_toggle_and_reflect_witness :
    (⟨true, false, false, false⟩ : ServoKeyModifiers) =
      glutin_mods_to_script_mods
        ((glutin_event_to_servo_event initial_window_state
            (.KeyboardInput .Pressed 0 (some .LShift))).1.key_modifiers) :=
  (modifier_bitset_toggle_and_reflect initial_window_state
      (.KeyboardInput .Pressed 0 (some .LShift))).2
    none .LeftShift .Pressed ⟨true, false, false, false⟩ rfl

/-- C3: a key-press `KeyEvent` carries `some c` exactly when `c` was the
pending character recorded from a previous `ReceivedCharacter` and the
pressed virtual key code is printable per `is_printable`; otherwise it
carries no character. -/
theorem key_press_char_iff_pending_printable (s : WindowState) (sc : Nat)
    (vk : VirtualKeyCode) (ch : Option Char) (k : Key) (st : KeyState)
    (m : ServoKeyModifiers)
    (h : (glutin_event_to_servo_event s
            (.KeyboardInput .Pressed sc (some vk))).2
          = some (.KeyEvent ch k st m)) :
    ∀ c : Char, ch = some c ↔
      (s.pending_key_event_char = some c ∧ is_printable vk = true) := by
  have h2 : (keyboard_input_step s .Pressed sc vk).2 =
      some (.KeyEvent ch k st m) := h
  rw [keyboard_input_step_snd] at h2
  cases hk : glutin_key_to_script_key vk with
  | none => rw [hk] at h2; exact Option.noConfusion h2
  | some key =>
      rw [hk] at h2
      injection h2 with h3
      injection h3 with hch hkey hst hm
      have hch' : (pressed_char_step (toggle_modifier s vk) sc vk).2 = ch := hch
      rw [pressed_char_step_snd, toggle_modifier_pending] at hch'
      intro c
      rw [← hch']
      cases hp : s.pending_key_event_char with
      | none => simp
      | some c0 =>
          by_cases hpr : is_printable vk <;>
            simp [filter_nonprintable, hpr]

/-- Witness for C3 at a concrete input: with pending character `a` and a
press of the printable key `A`, the emitted `KeyEvent` carries `a`. -/
theorem key_press_char_iff_pending_printable_witness :
    ((some 'a' : Option Char) = some 'a' ↔
      ({ initial_window_state with pending_key_event_char := some 'a'
          : WindowState }).pending_key_event_char = some 'a'
        ∧ is_printable .A = true) :=
  key_press_char_iff_pending_printable
    { initial_window_state with pending_key_event_char := some 'a' }
    0 .A (some 'a') .A .Pressed ⟨false, false, false, false⟩ rfl 'a'

theorem translation_ne_idle (s : WindowState) (ev : GlutinWindowEvent) :
    (glutin_event_to_servo_event s ev).2 ≠ some .Idle := by
  cases ev
  case MouseInput est b =>
    cases est <;> cases b <;> simp [glutin_event_to_servo_event]
  case ReceivedCharacter c =>
    by_cases hc : char_is_control c <;> simp [glutin_event_to_servo_event, hc]
  case KeyboardInput es sc ovk =>
    cases ovk with
    | none => simp [glutin_event_to_servo_event]
    | some vk =>
        show (keyboard_input_step s es sc vk).2 ≠ some .Idle
        rw [keyboard_input_step_snd]
        cases hk : glutin_key_to_script_key vk <;> simp
  all_goals simp [glutin_event_to_servo_event]

theorem processEvent_calls (ws : Windows) (pe : PlatformEvent)
    (e : ServoWindowEvent) (oid : Option Nat)
    (h : Output.callbackCall e oid ∈ (processEvent ws pe).2) :
    (e = .Idle ∧ oid = none) ∨ (e ≠ .Idle ∧ oid = some pe.window_id) := by
  cases hlk : lookupWindow ws pe.window_id with
  | some st =>
      simp only [processEvent, hlk] at h
      cases ht : (glutin_event_to_servo_event st pe.event).2 with
      | none => simp [ht] at h
      | some ev' =>
          simp [ht] at h
          right
          refine ⟨?_, h.2⟩
          rw [h.1]
          intro hcon
          exact translation_ne_idle st pe.event (by rw [ht, hcon])
  | none =>
      simp only [processEvent, hlk] at h
      split at h
      · simp at h; exact Or.inl ⟨h.1, h.2⟩
      · simp at h

theorem processBatch_calls (batch : List PlatformEvent) :
    ∀ (ws : Windows) (e : ServoWindowEvent) (oid : Option Nat),
      Output.callbackCall e oid ∈ (processBatch ws batch).2 →
      (e = .Idle ∧ oid = none) ∨ (e ≠ .Idle ∧ ∃ i, oid = some i) := by
  induction batch with
  | nil => intro ws e oid h; simp [processBatch] at h
  | cons pe rest ih =>
      intro ws e oid h
      simp only [processBatch] at h
      rw [List.mem_append] at h
      cases h with
      | inl h =>
          rcases processEvent_calls ws pe e oid h with ⟨h1, h2⟩ | ⟨h1, h2⟩
          · exact Or.inl ⟨h1, h2⟩
          · exact Or.inr ⟨h1, pe.window_id, h2⟩
      | inr h => exact ih _ e oid h

theorem runTrace_calls (batches : Nat → List PlatformEvent) (ws : Windows)
    (n : Nat) (e : ServoWindowEvent) (oid : Option Nat)
    (h : Output.callbackCall e oid ∈ (runTrace batches ws n).2) :
    (e = .Idle ∧ oid = none) ∨ (e ≠ .Idle ∧ ∃ i, oid = some i) := by
  induction n with
  | zero => simp [runTrace] at h
  | succ k ih =>
      simp only [runTrace, runIter] at h
      rw [List.mem_append] at h
      cases h with
      | inl h => exact ih h
      | inr h =>
          rw [List.mem_append] at h
          cases h with
          | inl h => exact processBatch_calls _ _ e oid h
          | inr h =>
              simp at h
              exact Or.inl ⟨h.1, h.2⟩

/-- C7: every event the run loop delivers is one of the five semantic kinds;
an `Idle` event is delivered exactly when the window id is absent, and every
non-`Idle` event dispatched for a platform event carries the id of the
window that produced it. -/
theorem delivered_event_id_discipline :
    (∀ (batches : Nat → List PlatformEvent) (ws : Windows) (n : Nat)
       (e : ServoWindowEvent) (oid : Option Nat),
       Output.callbackCall e oid ∈ (runTrace batches ws n).2 →
       (e = .Idle ↔ oid = none))
    ∧ (∀ (ws : Windows) (pe : PlatformEvent) (e : ServoWindowEvent)
         (oid : Option Nat),
         Output.callbackCall e oid ∈ (processEvent ws pe).2 →
         (e = .Idle → oid = none) ∧ (e ≠ .Idle → oid = some pe.window_id))
    ∧ (∀ e : ServoWindowEvent,
         e = .Idle
         ∨ (∃ x y, e = .MouseWindowMoveEventClass x y)
         ∨ (∃ loc x y ph, e = .Scroll loc x y ph)
         ∨ (∃ me, e = .MouseWindowEventClass me)
         ∨ (∃ c k st m, e = .KeyEvent c k st m)) := by
  refine ⟨?_, ?_, ?_⟩
  · intro batches ws n e oid h
    rcases runTrace_calls batches ws n e oid h with ⟨h1, h2⟩ | ⟨h1, h2⟩
    · exact ⟨fun _ => h2, fun _ => h1⟩
    · refine ⟨fun he => absurd he h1, fun hn => ?_⟩
      rw [hn] at h2
      rcases h2 with ⟨i, hi⟩
      exact Option.noConfusion hi
  · intro ws pe e oid h
    rcases processEvent_calls ws pe e oid h with ⟨h1, h2⟩ | ⟨h1, h2⟩
    · exact ⟨fun _ => h2, fun hne => absurd h1 hne⟩
    · exact ⟨fun he => absurd he h1, fun _ => h2⟩
  · intro e
    cases e
    · exact Or.inl rfl
    · exact Or.inr (Or.inl ⟨_, _, rfl⟩)
    · exact Or.inr (Or.inr (Or.inl ⟨_, _, _, _, rfl⟩))
    · exact Or.inr (Or.inr (Or.inr (Or.inl ⟨_, rfl⟩)))
    · exact Or.inr (Or.inr (Or.inr (Or.inr ⟨_, _, _, _, rfl⟩)))

/-- Witness for C7 at concrete inputs: the one-iteration trace over empty
batches delivers `Idle` with no id, and an `Awakened` event for an unknown
window delivers `Idle` with no id. -/
theorem delivered_event_id_discipline_witness :
    (ServoWindowEvent.Idle = .Idle ↔ (none : Option Nat) = none)
    ∧ ((ServoWindowEvent.Idle = .Idle → (none : Option Nat) = none)
       ∧ (ServoWindowEvent.Idle ≠ .Idle → (none : Option Nat) = some 0)) :=
  ⟨delivered_event_id_discipline.1 (fun _ => []) [] 1 .Idle none (by decide),
   delivered_event_id_discipline.2.1 [] ⟨0, .Awakened⟩ .Idle none (by decide)⟩

theorem set_perm_cons_eraseIdx {α : Type} (a : α) :
    ∀ (l : List α) (i : Nat), i < l.length →
      List.Perm (l.set i a) (a :: l.eraseIdx i) := by
  intro l
  induction l with
  | nil => intro i h; simp at h
  | cons x t ih =>
      intro i h
      cases i with
      | zero => simp
      | succ j =>
          have hj : j < t.length := by simpa using h
          have step : List.Perm (x :: t.set j a) (x :: (a :: t.eraseIdx j)) :=
            (ih j hj).cons x
          exact step.trans (List.Perm.swap a x _)

theorem swapRemove_perm_eraseIdx {α : Type} (l : List α) (i : Nat)
    (h : i < l.length) : List.Perm (swapRemove l i) (l.eraseIdx i) := by
  rcases List.eq_nil_or_concat' l with rfl | ⟨l', a, rfl⟩
  · simp at h
  · unfold swapRemove
    rw [List.getLast?_concat]
    show List.Perm (((l' ++ [a]).set i a).dropLast) ((l' ++ [a]).eraseIdx i)
    rcases Nat.lt_or_ge i l'.length with hi | hi
    · rw [List.set_append_left _ _ hi, List.dropLast_concat,
          List.eraseIdx_append_of_lt_length hi]
      exact (set_perm_cons_eraseIdx a l' i hi).trans
        (List.perm_append_singleton a _).symm
    · have hlen : i = l'.length := by
        have : (l' ++ [a]).length = l'.length + 1 := by simp
        omega
      subst hlen
      rw [List.set_append_right _ _ hi,
          List.eraseIdx_append_of_length_le (Nat.le_refl _)]
      simp

theorem countP_eraseIdx_add_one {α : Type} (p : α → Bool) :
    ∀ (l : List α) (i : Nat) (h : i < l.length), p (l.get ⟨i, h⟩) = true →
      (l.eraseIdx i).countP p + 1 = l.countP p := by
  intro l
  induction l with
  | nil => intro i h; simp at h
  | cons x t ih =>
      intro i h hp
      cases i with
      | zero => simp_all [List.countP_cons]
      | succ j =>
          have hj : j < t.length := by simpa using h
          have hrec := ih j hj hp
          simp only [List.eraseIdx_cons_succ, List.countP_cons]
          omega

theorem released_char_step_of_none (s : WindowState) (sc : Nat)
    (h : s.pressed_key_map.findIdx? (fun q => q.1 == sc) = none) :
    released_char_step s sc = (s, none) := by
  unfold released_char_step; rw [h]

theorem released_char_step_of_some (s : WindowState) (sc idx : Nat)
    (h : s.pressed_key_map.findIdx? (fun q => q.1 == sc) = some idx) :
    released_char_step s sc =
      ({ s with pressed_key_map := swapRemove s.pressed_key_map idx },
       (s.pressed_key_map.get? idx).map Prod.snd) := by
  unfold released_char_step; rw [h]

theorem keyboard_released_fst (s : WindowState) (sc : Nat)
    (vk : VirtualKeyCode) :
    (glutin_event_to_servo_event s
        (.KeyboardInput .Released sc (some vk))).1 =
      (released_char_step (toggle_modifier s vk) sc).1 := by
  show (keyboard_input_step s .Released sc vk).1 = _
  rw [keyboard_input_step_fst]

theorem keyboard_released_snd_char (s : WindowState) (sc : Nat)
    (vk : VirtualKeyCode) (ch : Option Char) (k : Key) (st : KeyState)
    (m : ServoKeyModifiers)
    (h : (glutin_event_to_servo_event s
            (.KeyboardInput .Released sc (some vk))).2
          = some (.KeyEvent ch k st m)) :
    ch = (released_char_step (toggle_modifier s vk) sc).2 := by
  have h2 : (keyboard_input_step s .Released sc vk).2 =
      some (.KeyEvent ch k st m) := h
  rw [keyboard_input_step_snd] at h2
  cases hk : glutin_key_to_script_key vk with
  | none => rw [hk] at h2; exact Option.noConfusion h2
  | some key =>
      rw [hk] at h2
      injection h2 with h3
      injection h3 with hch hkey hst hm
      exact hch.symm

/-- C10: the character recorded for a scan code is delivered by a key-release
at most once: a release finding the (first) entry for its scan code yields
that entry's character and removes exactly one such entry from the map
(`swap_remove`), a release finding no entry yields no character and leaves
the map unchanged, and after consuming the only entry for a scan code a
second release of it yields no character. -/
theorem release_consumes_recorded_char (s : WindowState) (sc : Nat)
    (vk : VirtualKeyCode) :
    (s.pressed_key_map.findIdx? (fun q => q.1 == sc) = none →
      ((glutin_event_to_servo_event s
          (.KeyboardInput .Released sc (some vk))).1.pressed_key_map
         = s.pressed_key_map
       ∧ ∀ ch k st m,
           (glutin_event_to_servo_event s
              (.KeyboardInput .Released sc (some vk))).2
             = some (.KeyEvent ch k st m) → ch = none))
    ∧ (∀ idx, s.pressed_key_map.findIdx? (fun q => q.1 == sc) = some idx →
        ((glutin_event_to_servo_event s
            (.KeyboardInput .Released sc (some vk))).1.pressed_key_map.countP
              (fun q => q.1 == sc) + 1
           = s.pressed_key_map.countP (fun q => q.1 == sc)
         ∧ ∀ ch k st m,
             (glutin_event_to_servo_event s
                (.KeyboardInput .Released sc (some vk))).2
               = some (.KeyEvent ch k st m) →
             ch = (s.pressed_key_map.get? idx).map Prod.snd))
    ∧ (s.pressed_key_map.countP (fun q => q.1 == sc) ≤ 1 →
        ∀ vk₂ ch k st m,
          (glutin_event_to_servo_event
              (glutin_event_to_servo_event s
                (.KeyboardInput .Released sc (some vk))).1
              (.KeyboardInput .Released sc (some vk₂))).2
            = some (.KeyEvent ch k st m) → ch = none) := by
  refine ⟨?_, ?_, ?_⟩
  · intro hf
    have hT : (toggle_modifier s vk).pressed_key_map.findIdx?
        (fun q => q.1 == sc) = none := by
      rw [toggle_modifier_map]; exact hf
    have hr := released_char_step_of_none (toggle_modifier s vk) sc hT
    constructor
    · rw [keyboard_released_fst, hr]
      exact toggle_modifier_map s vk
    · intro ch k st m hev
      have hc := keyboard_released_snd_char s sc vk ch k st m hev
      rw [hr] at hc
      exact hc
  · intro idx hf
    obtain ⟨hlt, hp, hmin⟩ := List.findIdx?_eq_some_iff_getElem.mp hf
    have hT : (toggle_modifier s vk).pressed_key_map.findIdx?
        (fun q => q.1 == sc) = some idx := by
      rw [toggle_modifier_map]; exact hf
    have hr := released_char_step_of_some (toggle_modifier s vk) sc idx hT
    constructor
    · rw [keyboard_released_fst, hr]
      show (swapRemove (toggle_modifier s vk).pressed_key_map idx).countP
          (fun q => q.1 == sc) + 1
        = s.pressed_key_map.countP (fun q => q.1 == sc)
      rw [toggle_modifier_map,
          List.Perm.countP_eq _ (swapRemove_perm_eraseIdx _ idx hlt)]
      exact countP_eraseIdx_add_one (fun q => q.1 == sc) s.pressed_key_map idx hlt hp
    · intro ch k st m hev
      have hc := keyboard_released_snd_char s sc vk ch k st m hev
      rw [hr] at hc
      rw [toggle_modifier_map] at hc
      exact hc
  · intro hle vk₂ ch k st m hev
    have hzero : (glutin_event_to_servo_event s
        (.KeyboardInput .Released sc (some vk))).1.pressed_key_map.countP
          (fun q => q.1 == sc) = 0 := by
      cases hf : s.pressed_key_map.findIdx? (fun q => q.1 == sc) with
      | none =>
          have hT : (toggle_modifier s vk).pressed_key_map.findIdx?
              (fun q => q.1 == sc) = none := by
            rw [toggle_modifier_map]; exact hf
          rw [keyboard_released_fst,
              released_char_step_of_none (toggle_modifier s vk) sc hT]
          show (toggle_modifier s vk).pressed_key_map.countP
              (fun q => q.1 == sc) = 0
          rw [toggle_modifier_map, List.countP_eq_zero]
          intro a ha
          have := List.findIdx?_eq_none_iff.mp hf a ha
          simp [this]
      | some idx =>
          obtain ⟨hlt, hp, hmin⟩ := List.findIdx?_eq_some_iff_getElem.mp hf
          have hT : (toggle_modifier s vk).pressed_key_map.findIdx?
              (fun q => q.1 == sc) = some idx := by
            rw [toggle_modifier_map]; exact hf
          rw [keyboard_released_fst,
              released_char_step_of_some (toggle_modifier s vk) sc idx hT]
          show (swapRemove (toggle_modifier s vk).pressed_key_map idx).countP
              (fun q => q.1 == sc) = 0
          rw [toggle_modifier_map,
              List.Perm.countP_eq _ (swapRemove_perm_eraseIdx _ idx hlt)]
          have := countP_eraseIdx_add_one (fun q => q.1 == sc) s.pressed_key_map idx hlt hp
          omega
    have hnone : (glutin_event_to_servo_event s
        (.KeyboardInput .Released sc (some vk))).1.pressed_key_map.findIdx?
          (fun q => q.1 == sc) = none := by
      rw [List.findIdx?_eq_none_iff]
      intro x hx
      have := List.countP_eq_zero.mp hzero x hx
      simpa using this
    have hT2 : (toggle_modifier (glutin_event_to_servo_event s
        (.KeyboardInput .Released sc (some vk))).1 vk₂).pressed_key_map.findIdx?
          (fun q => q.1 == sc) = none := by
      rw [toggle_modifier_map]; exact hnone
    have hc := keyboard_released_snd_char _ sc vk₂ ch k st m hev
    rw [released_char_step_of_none _ sc hT2] at hc
    exact hc

/-- Witness for C10 at a concrete input: with the map holding one entry
`(5, a)`, a release of scan code 5 removes the entry and carries `a`. -/
theorem release_consumes_recorded_char_witness :
    ((glutin_event_to_servo_event
        { initial_window_state with pressed_key_map := [(5, 'a')] }
        (.KeyboardInput .Released 5 (some .A))).1.pressed_key_map.countP
          (fun q => q.1 == 5) + 1
       = ([(5, 'a')] : List (Nat × Char)).countP (fun q => q.1 == 5))
    ∧ (some 'a' : Option Char)
        = (([(5, 'a')] : List (Nat × Char)).get? 0).map Prod.snd := by
  have h := (release_consumes_recorded_char
      { initial_window_state with pressed_key_map := [(5, 'a')] } 5 .A).2.1
      0 (by decide)
  exact ⟨h.1, h.2 (some 'a') .A .Released ⟨false, false, false, false⟩
    (by decide)⟩

end ServoGLWindows
